import Mathlib

set_option maxHeartbeats 1000000
set_option maxRecDepth 8000

/-!
Verification of the Proposal_Analyzer core against its specification.

Strings are modelled as `List Char` (a Python `str` is a sequence of code
points).  Python string primitives (`strip`, `upper`, slicing, `find`,
`rfind`, `count`, `re.sub` for the fixed patterns used by the code) are
embedded as executable Lean functions below; the repository's functions are
then transcribed on top of them.  External effects (file IO, the PyPDF2 /
python-docx / docx2txt readers, the LLM gateway, and `json.loads` from the
Python standard library) are modelled as explicit parameters, so every
repository function becomes a pure function of its inputs.
-/

/-- Python whitespace predicate, restricted to the whitespace code points
that occur in this code base (`str.strip`, `\s`). -/
def pyIsSpace (c : Char) : Bool :=
  c = ' ' || c = '\t' || c = '\n' || c = '\r' || c = '\x0b' || c = '\x0c' || c = '\xa0'

/-- Python `str.lstrip()`. -/
def pyLStrip (l : List Char) : List Char := l.dropWhile pyIsSpace

/-- Python `str.rstrip()`. -/
def pyRStrip (l : List Char) : List Char := (l.reverse.dropWhile pyIsSpace).reverse

/-- Python `str.strip()`. -/
def pyStrip (l : List Char) : List Char := pyLStrip (pyRStrip l)

/-- Python `str.upper()` (per-character uppercasing; faithful for the
ASCII data this code compares against). -/
def pyUpper (l : List Char) : List Char := l.map Char.toUpper

/-- Python `str.lower()` (per-character; faithful for ASCII suffixes). -/
def pyLower (l : List Char) : List Char := l.map Char.toLower

/-- Python `s.startswith(pre)`. -/
def startsWith (pre l : List Char) : Bool := l.take pre.length == pre

/-- `pat` occurs in `s` at position `p` (exact substring match). -/
def matchAt (s pat : List Char) (p : Nat) : Bool := (s.drop p).take pat.length == pat

/-- `pat` occurs somewhere in `w` as a contiguous substring. -/
def occursInB (pat w : List Char) : Bool :=
  (List.range (w.length + 1)).any (fun q => matchAt w pat q)

/-- Python slice/`find` start-index adjustment (negative indices count from
the end; the start is not clamped to the length, matching CPython `find`). -/
def pyAdjStart (n : Nat) (i : Int) : Nat :=
  if i < 0 then ((n : Int) + i).toNat else i.toNat

/-- Python slice/`find` end-index adjustment. -/
def pyAdjEnd (n : Nat) (i : Int) : Nat :=
  if i < 0 then ((n : Int) + i).toNat else min i.toNat n

/-- Python `s.find(sub, a, b)`: the least index of an occurrence of `sub`
lying entirely inside the adjusted range, `none` for `-1`. -/
def pyFind (s sub : List Char) (a b : Int) : Option Nat :=
  let a' := pyAdjStart s.length a
  let b' := pyAdjEnd s.length b
  (List.range' a' (b' + 1 - a')).find?
    (fun p => decide (p + sub.length ≤ b') && matchAt s sub p)

/-- Python `s.rfind(sub, a, b)` for non-negative bounds: the greatest index
of an occurrence of `sub` inside the range, `none` for `-1`. -/
def pyRfind (s sub : List Char) (a b : Nat) : Option Nat :=
  let b' := min b s.length
  ((List.range' a (b' + 1 - a)).reverse).find?
    (fun p => decide (p + sub.length ≤ b') && matchAt s sub p)

/-- Python `s[a:b]` with full slice-index semantics. -/
def pySlice (l : List Char) (a b : Int) : List Char :=
  let a' := min (pyAdjStart l.length a) l.length
  let b' := pyAdjEnd l.length b
  (l.drop a').take (b' - a')

/-- Python `s[a:b]` for natural-number indices. -/
def sliceNat (l : List Char) (a b : Nat) : List Char := (l.drop a).take (b - a)

/-- Python `s.count(c, a, b)` for a single-character needle. -/
def countCharIn (l : List Char) (c : Char) (a b : Nat) : Nat := (sliceNat l a b).count c

/-- Python `s.find(c)` for a single character: index of first occurrence. -/
def findCharIdx : List Char → Char → Option Nat
  | [], _ => none
  | c :: r, d => if c = d then some 0 else (findCharIdx r d).map (· + 1)

/-- Python `s.rfind(c)` for a single character: index of last occurrence. -/
def rfindCharIdx (l : List Char) (d : Char) : Option Nat :=
  (findCharIdx l.reverse d).map (fun i => l.length - 1 - i)

/-- Split on newline characters, Python `s.split(chr(10))`. -/
def splitNLAux (acc : List Char) : List Char → List (List Char)
  | [] => [acc.reverse]
  | c :: r => if c = '\n' then acc.reverse :: splitNLAux [] r else splitNLAux (c :: acc) r

/-- Python `s.split(chr(10))`. -/
def splitNL (l : List Char) : List (List Char) := splitNLAux [] l

/-- Python `sep.join(parts)`. -/
def joinWith (sep : List Char) : List (List Char) → List Char
  | [] => []
  | [l] => l
  | l :: r => l ++ sep ++ joinWith sep r

/-- Python `"\n".join(parts)`. -/
def joinNL (parts : List (List Char)) : List Char := joinWith ['\n'] parts

/-- Python `re.sub(r'(\r\n|\r)', chr(10), s)` — spelled `\r\n|\r` in the
chunker: collapse CRLF and lone CR to LF. -/
def normalizeNewlines : List Char → List Char
  | [] => []
  | '\r' :: '\n' :: r => '\n' :: normalizeNewlines r
  | '\r' :: r => '\n' :: normalizeNewlines r
  | c :: r => c :: normalizeNewlines r

/-- State machine for `re.sub(r'(\r\n|\r|\n)+', chr(10), s)`: every maximal
nonempty run of CR/LF characters becomes a single LF. -/
def collapseNLAux : Bool → List Char → List Char
  | _, [] => []
  | inRun, c :: r =>
    if c = '\r' || c = '\n' then
      if inRun then collapseNLAux true r else '\n' :: collapseNLAux true r
    else c :: collapseNLAux false r

/-- Python `re.sub(r'(\r\n|\r|\n)+', chr(10), s)`. -/
def collapseNewlineRuns (l : List Char) : List Char := collapseNLAux false l

/-- The character class `[ \t\xA0]` of the intra-line whitespace regex. -/
def pyIsBlank (c : Char) : Bool := c = ' ' || c = '\t' || c = '\xa0'

/-- State machine for `re.sub(r'[ \t\xA0]+', chr(32), line)`: every maximal
run of space/tab/NBSP becomes a single space. -/
def collapseBlankAux : Bool → List Char → List Char
  | _, [] => []
  | inRun, c :: r =>
    if pyIsBlank c then
      if inRun then collapseBlankAux true r else ' ' :: collapseBlankAux true r
    else c :: collapseBlankAux false r

/-- Python `re.sub(r'[ \t\xA0]+', chr(32), line)`. -/
def collapseBlanks (l : List Char) : List Char := collapseBlankAux false l

/-- State machine for `re.sub(r'\n\x7b3,\x7d', chr(10) * 2, s)`: a run of
`k` newlines becomes `min k 2` newlines. -/
def collapse3NLAux : Nat → List Char → List Char
  | k, [] => List.replicate (min k 2) '\n'
  | k, c :: r =>
    if c = '\n' then collapse3NLAux (k + 1) r
    else List.replicate (min k 2) '\n' ++ c :: collapse3NLAux 0 r

/-- Python `re.sub` collapsing three or more consecutive newlines to two. -/
def collapseTripleNewlines (l : List Char) : List Char := collapse3NLAux 0 l

/-- Python word-character class `\w` (ASCII fidelity). -/
def pyIsWord (c : Char) : Bool := c.isAlpha || c.isDigit || c = '_'

/-- Python `re.sub(r'(\w)-(\r\n|\r|\n)(\w)', r'\1\3', s)`: re-join words
split by a hyphen at a line break, scanning left to right with the match
consumed (matched text replaced by the two word characters). -/
def hyphenRejoin : List Char → List Char
  | [] => []
  | a :: '-' :: '\r' :: '\n' :: b :: r =>
    if pyIsWord a && pyIsWord b then a :: b :: hyphenRejoin r
    else a :: '-' :: '\r' :: '\n' :: hyphenRejoin (b :: r)
  | a :: '-' :: '\r' :: b :: r =>
    if pyIsWord a && pyIsWord b then a :: b :: hyphenRejoin r
    else a :: '-' :: '\r' :: hyphenRejoin (b :: r)
  | a :: '-' :: '\n' :: b :: r =>
    if pyIsWord a && pyIsWord b then a :: b :: hyphenRejoin r
    else a :: '-' :: '\n' :: hyphenRejoin (b :: r)
  | a :: rest => a :: hyphenRejoin rest

/-!
## utils/text_extraction.py

The format readers (PyPDF2, python-docx, docx2txt) perform file IO; their
observable outputs (page texts, paragraph/cell texts, raw text) and the
failure modes (library missing, path not a file, read/parse exception) are
modelled as explicit inputs.  `Except Unit X` stands for "reading raised an
exception" versus "the reader produced `X`".
-/

/-- Shared cleanup steps of the extractors: collapse newline runs, collapse
and trim intra-line whitespace per line, collapse 3+ newlines to 2
(`text_extraction.py` steps after the raw text is assembled). -/
def cleanupNewlinesAndBlanks (t : List Char) : List Char :=
  let t2 := collapseNewlineRuns t
  let cleaned := (splitNL t2).map (fun l => pyStrip (collapseBlanks l))
  collapseTripleNewlines (joinNL cleaned)

/-- `extract_text_from_pdf`, given the per-page `extract_text()` results:
keep truthy (non-empty) pages, join with a newline, re-join hyphenated
line-break splits, clean up, and strip (`text_extraction.py` lines 41-78). -/
def extractPdfCore (pages : List (List Char)) : Option (List Char) :=
  let raw_text_parts := pages.filter (fun p => !p.isEmpty)
  if raw_text_parts.isEmpty then none
  else
    let full_raw_text := joinNL raw_text_parts
    let processed := cleanupNewlinesAndBlanks (hyphenRejoin full_raw_text)
    some (pyStrip processed)

/-- `extract_text_from_pdf` including its guard paths (library missing,
path not a file, exception while reading). -/
def extract_text_from_pdf (pypdf2Available isFile : Bool)
    (pages : Except Unit (List (List Char))) : Option (List Char) :=
  if !pypdf2Available then none
  else if !isFile then none
  else match pages with
    | .error _ => none
    | .ok ps => extractPdfCore ps

/-- `extract_text_from_docx` core, given paragraph texts and table-cell
texts: keep entries whose `strip()` is truthy, join with a newline, clean
up (no hyphen re-join on this path), strip (lines 102-135). -/
def extractDocxCore (paras cells : List (List Char)) : Option (List Char) :=
  let full_text := paras.filter (fun p => !(pyStrip p).isEmpty)
      ++ cells.filter (fun p => !(pyStrip p).isEmpty)
  if full_text.isEmpty then none
  else some (pyStrip (cleanupNewlinesAndBlanks (joinNL full_text)))

/-- `extract_text_from_docx` including its guard paths. -/
def extract_text_from_docx (docxAvailable isFile : Bool)
    (content : Except Unit (List (List Char) × List (List Char))) : Option (List Char) :=
  if !docxAvailable then none
  else if !isFile then none
  else match content with
    | .error _ => none
    | .ok pc => extractDocxCore pc.1 pc.2

/-- `extract_text_from_doc` core, given `docx2txt.process`'s raw text:
reject empty or whitespace-only text, clean up (no hyphen re-join on this
path), strip (lines 159-178). -/
def extractDocCore (raw_text : List Char) : Option (List Char) :=
  if raw_text.isEmpty || (pyStrip raw_text).isEmpty then none
  else some (pyStrip (cleanupNewlinesAndBlanks raw_text))

/-- `extract_text_from_doc` including its guard paths. -/
def extract_text_from_doc (docx2txtAvailable isFile : Bool)
    (raw : Except Unit (List Char)) : Option (List Char) :=
  if !docx2txtAvailable then none
  else if !isFile then none
  else match raw with
    | .error _ => none
    | .ok t => extractDocCore t

/-- The observable inputs of `extract_text_from_document`: the dispatching
attributes of the path plus what each format reader would yield for it. -/
structure DocSource where
  isFile : Bool
  suffix : List Char
  pypdf2Available : Bool
  docxAvailable : Bool
  docx2txtAvailable : Bool
  pdfPages : Except Unit (List (List Char))
  docxContent : Except Unit (List (List Char) × List (List Char))
  docRaw : Except Unit (List Char)

/-- `extract_text_from_document` (lines 184-207): dispatch on the lowered
suffix; unsupported extensions and non-files yield `none`. -/
def extract_text_from_document (d : DocSource) : Option (List Char) :=
  if !d.isFile then none
  else
    let file_extension := pyLower d.suffix
    if file_extension = (".pdf").data then
      extract_text_from_pdf d.pypdf2Available d.isFile d.pdfPages
    else if file_extension = (".docx").data then
      extract_text_from_docx d.docxAvailable d.isFile d.docxContent
    else if file_extension = (".doc").data then
      extract_text_from_doc d.docx2txtAvailable d.isFile d.docRaw
    else none

/-!
## proposal_analyzer/rules_engine.py

The LLM gateway (`ask`, a partial application of `llm_client.query`) is a
function parameter in the source already; it stays one here.
-/

/-- The fixed system prompt of `rules_engine.py` (module constant). -/
def SYSTEM_PROMPT : List Char := (
  "You are an expert compliance checker. Based on the provided context (call for proposal and proposal document), answer the given question with exactly one of these three formats:\n\n" ++
  "\"YES: [explanation]\" - if the proposal clearly meets the requirement\n" ++
  "\"NO: [explanation]\" - if the proposal clearly does not meet the requirement  \n" ++
  "\"UNSURE: [explanation]\" - if the information is unclear, missing, or ambiguous in the call or proposal document\n\n" ++
  "CRITICAL INSTRUCTION: You MUST start your response with exactly one of these prefixes: \"YES:\", \"NO:\", or \"UNSURE:\"\n\n" ++
  "DO NOT START WITH ANY OTHER WORDS. Examples of WRONG formats:\n" ++
  "❌ \"The proposal appears...\"\n" ++
  "❌ \"Based on the document...\"\n" ++
  "❌ \"Yes, the proposal...\"\n" ++
  "❌ \"The proposal does not...\"\n" ++
  "❌ \"This proposal...\"\n\n" ++
  "CORRECT FORMAT EXAMPLES:\n" ++
  "✅ \"YES: The proposal explicitly states...\"\n" ++
  "✅ \"NO: The proposal does not mention...\"\n" ++
  "✅ \"UNSURE: The proposal mentions alignment but...\"\n\n" ++
  "MANDATORY: Your first word must be either \"YES:\", \"NO:\", or \"UNSURE:\" followed by a colon and space.\n\n" ++
  "If a question is about comparing the proposal to the call, it is ok to be unsure if the information is not provided in the call or proposal document.\n\n" ++
  "REMINDER: Always start your response with exactly one of: YES:, NO:, or UNSURE:\n" ++
  "Never start with any other phrase. This format is REQUIRED and NON-NEGOTIABLE.\n\n" ++
  "FORMAT CHECK: Before responding, verify your answer starts with \"YES:\", \"NO:\", or \"UNSURE:\" - no exceptions allowed.").data

/-- One entry of the `messages` list sent to the gateway. -/
structure ChatMessage where
  role : List Char
  content : List Char

/-- The `--- NAME ---` context block concatenation built by `evaluate`. -/
def buildContextStr (context : List (List Char × List Char)) : List Char :=
  joinWith (("\n\n").data)
    (context.map (fun nc => (("--- ").data) ++ pyUpper nc.1 ++ ((" ---\n").data) ++ nc.2))

/-- The user prompt built by `evaluate` (f-string plus the optional
`Additional instructions` suffix). -/
def buildUserPrompt (question : List Char) (context : List (List Char × List Char))
    (instructions : Option (List Char)) : List Char :=
  let base := (("Here is the context:\n").data) ++ buildContextStr context ++
    (("\n\n--- QUESTION ---\n").data) ++ question ++
    (("\n\nIMPORTANT: Start your response with exactly \"YES:\", \"NO:\", or \"UNSURE:\" - no other format is acceptable.").data)
  match instructions with
  | some ins => base ++ (("\nAdditional instructions: ").data) ++ ins ++ (("\n").data)
  | none => base

/-- The two-message list `evaluate` sends to the gateway. -/
def buildMessages (question : List Char) (context : List (List Char × List Char))
    (instructions : Option (List Char)) : List ChatMessage :=
  [⟨(("system").data), SYSTEM_PROMPT⟩, ⟨(("user").data), buildUserPrompt question context instructions⟩]

/-- The record returned by `evaluate` (`answer` is the tri-state
True/False/None of the Python dict). -/
structure EvalResult where
  question : List Char
  answer : Option Bool
  reasoning : List Char
  raw_response : List Char
deriving DecidableEq

/-- `rules_engine.evaluate` (lines 32-97): build the prompt, call the
gateway, parse the `YES:`/`NO:`/`UNSURE:` prefix of the stripped response
case-insensitively, fall back to an "Unexpected response format" record. -/
def evaluate (question : List Char) (context : List (List Char × List Char))
    (ask : List ChatMessage → List Char) (instructions : Option (List Char)) : EvalResult :=
  let raw_response := ask (buildMessages question context instructions)
  let response_strip := pyStrip raw_response
  let response_upper := pyUpper response_strip
  if startsWith (("YES:").data) response_upper then
    ⟨question, some true, pyStrip (response_strip.drop 4), raw_response⟩
  else if startsWith (("NO:").data) response_upper then
    ⟨question, some false, pyStrip (response_strip.drop 3), raw_response⟩
  else if startsWith (("UNSURE:").data) response_upper then
    ⟨question, none, pyStrip (response_strip.drop 7), raw_response⟩
  else
    ⟨question, none, (("Unexpected response format: ").data) ++ response_strip, raw_response⟩

/-!
## services/spell_checking_service.py

The LLM call of `_call_llm_for_correction` is modelled by passing the raw
response text for each chunk as input (`responses : Nat → List Char`,
indexed by chunk index), and `json.loads` from the Python standard library
is modelled as a parameter `loads` producing, on success, the list of
candidate-finding dictionaries; a dictionary is modelled as a record of
optional fields (`none` = key absent).  Two candidate models are used:
`RawFinding` encodes an offset value only by whether `int()` succeeds or
raises `ValueError` (the per-candidate skip path), while `RawFindingJson`
carries the full `int()` behaviour — a present offset value may also raise
`TypeError` (e.g. JSON `null` or an array), which is not caught by the
`except ValueError` of line 232 but by the outer `except Exception` of
lines 282-284, discarding the whole chunk's findings.
-/

/-- One chunk produced by `_chunk_text`. -/
structure ChunkInfo where
  text_content : List Char
  start_offset_abs : Nat
  start_line_abs : Nat
deriving DecidableEq

/-- The natural-break adjustment of the window end (`_chunk_text` lines
112-119): look backwards for a sentence boundary `". "`, else for a space;
only breaks strictly after the cursor are used. -/
def chunkBreakOffset (s : List Char) (cur end0 : Nat) : Nat :=
  let spaceFallback :=
    match pyRfind s ((" ").data) cur end0 with
    | some pb => if cur < pb then pb else end0
    | none => end0
  match pyRfind s ((". ").data) cur (end0 + 1) with
  | some pb => if cur < pb then pb + 1 else spaceFallback
  | none => spaceFallback

/-- The chunk end offset chosen for cursor position `cur`: the nominal
window end, adjusted to a natural break when the window does not reach the
end of the text (lines 111-119). -/
def chunkEndOff (s : List Char) (chunk_size cur : Nat) : Nat :=
  let end0 := min (cur + chunk_size) s.length
  if end0 < s.length then chunkBreakOffset s cur end0 else end0

/-- The cursor update of `_chunk_text` (lines 132-133):
`max(new_start_offset, cur + 1 if new_start_offset <= cur else new_start_offset)`,
which is `cur + 1` when `endOff - overlap ≤ cur` and `endOff - overlap`
otherwise. -/
def chunkNextCur (overlap endOff cur : Nat) : Nat :=
  let newStart : Int := (endOff : Int) - (overlap : Int)
  if newStart ≤ (cur : Int) then cur + 1 else newStart.toNat

/-- The `while` loop of `_chunk_text` (lines 110-135), with an explicit
fuel argument bounding the number of iterations; each iteration advances
the cursor by at least one, so fuel `s.length` always suffices (proved
below).  Arguments: fuel, cursor, running line counter, counter watermark
(`processed_chars_for_line_counting`). -/
def chunkLoopF (s : List Char) (chunk_size overlap : Nat) :
    Nat → Nat → Nat → Nat → List ChunkInfo
  | 0, _, _, _ => []
  | fuel + 1, cur, line, processed =>
    if cur < s.length then
      let endOff := chunkEndOff s chunk_size cur
      let content := pyStrip (sliceNat s cur endOff)
      let line' := line + countCharIn s '\n' processed cur
      let emitted : List ChunkInfo := if content.isEmpty then [] else [⟨content, cur, line'⟩]
      if endOff = s.length then emitted
      else emitted ++ chunkLoopF s chunk_size overlap fuel (chunkNextCur overlap endOff cur) line' cur
    else []

/-- `_chunk_text` (lines 96-136): empty text gives no chunks; otherwise
normalize newlines and run the chunking loop from offset 0, line 1. -/
def chunk_text (text : List Char) (chunk_size overlap : Nat) : List ChunkInfo :=
  if text.isEmpty then []
  else
    let normalized_text := normalizeNewlines text
    chunkLoopF normalized_text chunk_size overlap normalized_text.length 0 1 0

/-- A candidate finding as parsed from the model's JSON: the Python dict,
with `none` marking an absent key, and offset values marking whether
`int(...)` succeeds. -/
structure RawFinding where
  original_snippet_text : Option (List Char)
  suggestion : Option (List Char)
  type : Option (List Char)
  start_offset_in_chunk : Option (Option Int)
  end_offset_in_chunk : Option (Option Int)
  explanation : Option (List Char)
deriving DecidableEq

/-- A finding that survived validation, with reconciled offsets
(`explanation` is read with `.get`, so it may be absent). -/
structure Finding where
  original_snippet_text : List Char
  suggestion : List Char
  type : List Char
  start_offset_in_chunk : Nat
  end_offset_in_chunk : Nat
  explanation : Option (List Char)
deriving DecidableEq

/-- The offset-reconciliation of `_call_llm_for_correction` (lines
236-271) as a pure function: direct trust, then windowed search, then
full-chunk search, else drop. -/
def reconcile (chunk_text_content : List Char) (llm_start_offset llm_end_offset : Int)
    (llm_snippet : List Char) : Option (Nat × Nat) :=
  if 0 ≤ llm_start_offset ∧ llm_start_offset < llm_end_offset ∧
      pySlice chunk_text_content llm_start_offset llm_end_offset = llm_snippet then
    some (llm_start_offset.toNat, llm_end_offset.toNat)
  else
    let search_window_delta : Int := 50
    let search_start : Int := max 0 (llm_start_offset - search_window_delta)
    let search_end : Int := min (chunk_text_content.length : Int)
      (llm_start_offset + (llm_snippet.length : Int) + search_window_delta)
    match pyFind chunk_text_content llm_snippet search_start search_end with
    | some p => some (p, p + llm_snippet.length)
    | none =>
      match pyFind chunk_text_content llm_snippet 0 (chunk_text_content.length : Int) with
      | some p => some (p, p + llm_snippet.length)
      | none => none

/-- The validation loop of `_call_llm_for_correction` (lines 223-277)
over `RawFinding` candidates (offset conversion failures are the caught
`ValueError`s): skip candidates missing a required key, skip candidates
whose `int()` raises `ValueError`, reconcile the rest and keep those with
a verified location.  `processFindingsJson` below refines this with the
uncaught `TypeError` path. -/
def processFindings (chunk_text_content : List Char) : List RawFinding → List Finding
  | [] => []
  | f :: rest =>
    match f.original_snippet_text, f.suggestion, f.type,
        f.start_offset_in_chunk, f.end_offset_in_chunk with
    | some snip, some sug, some ty, some so, some eo =>
      match so, eo with
      | some s, some e =>
        match reconcile chunk_text_content s e snip with
        | some (a, b) => ⟨snip, sug, ty, a, b, f.explanation⟩ :: processFindings chunk_text_content rest
        | none => processFindings chunk_text_content rest
      | _, _ => processFindings chunk_text_content rest
    | _, _, _, _, _ => processFindings chunk_text_content rest

/-- The candidate that the validation loop hands to reconciliation: all
five required keys present and both offsets convertible by `int()`. -/
def toCandidate (f : RawFinding) : Option (List Char × Int × Int) :=
  match f.original_snippet_text, f.suggestion, f.type,
      f.start_offset_in_chunk, f.end_offset_in_chunk with
  | some snip, some _, some _, some (some s), some (some e) => some (snip, s, e)
  | _, _, _, _, _ => none

/-- The behaviour of Python `int(v)` on a parsed JSON offset value `v`:
a successful conversion, a `ValueError` (a non-numeric string — caught by
the `except ValueError` at line 232, which skips the candidate), or a
`TypeError` (e.g. `null` or an array — not caught there; it propagates to
the `except Exception` at lines 282-284). -/
inductive PyIntCast where
  | ok (n : Int)
  | valueError
  | typeError
deriving DecidableEq

/-- A candidate finding as parsed from the model's JSON, with each
present offset value carrying its full `int()` behaviour (this refines
`RawFinding`, whose conversion failures are `ValueError` only). -/
structure RawFindingJson where
  original_snippet_text : Option (List Char)
  suggestion : Option (List Char)
  type : Option (List Char)
  start_offset_in_chunk : Option PyIntCast
  end_offset_in_chunk : Option PyIntCast
  explanation : Option (List Char)
deriving DecidableEq

/-- The `all(k in finding for k in [...])` required-key check of line
225: the five keys `original_snippet_text`, `suggestion`, `type`,
`start_offset_in_chunk`, `end_offset_in_chunk` (`explanation` is not
required). -/
def requiredKeysPresent (f : RawFindingJson) : Bool :=
  f.original_snippet_text.isSome && f.suggestion.isSome && f.type.isSome &&
    f.start_offset_in_chunk.isSome && f.end_offset_in_chunk.isSome

/-- The validation loop of `_call_llm_for_correction` (lines 223-277)
over fully modelled candidates: a candidate missing a required key is
skipped; `int(finding['start_offset_in_chunk'])` is evaluated before
`int(finding['end_offset_in_chunk'])`, a `ValueError` from either skips
the candidate, and a `TypeError` escapes the loop (`.error`), discarding
every validated finding of the chunk; the remaining candidates are
reconciled and kept when a location is verified. -/
def processFindingsJson (chunk_text_content : List Char) :
    List RawFindingJson → Except Unit (List Finding)
  | [] => .ok []
  | f :: rest =>
    match f.original_snippet_text, f.suggestion, f.type,
        f.start_offset_in_chunk, f.end_offset_in_chunk with
    | some snip, some sug, some ty, some so, some eo =>
      match so with
      | .typeError => .error ()
      | .valueError => processFindingsJson chunk_text_content rest
      | .ok s =>
        match eo with
        | .typeError => .error ()
        | .valueError => processFindingsJson chunk_text_content rest
        | .ok e =>
          match reconcile chunk_text_content s e snip with
          | some (a, b) =>
            (processFindingsJson chunk_text_content rest).map
              (fun v => ⟨snip, sug, ty, a, b, f.explanation⟩ :: v)
          | none => processFindingsJson chunk_text_content rest
    | _, _, _, _, _ => processFindingsJson chunk_text_content rest

/-- First position at or after `k` where a code fence ` ``` ` closes. -/
def firstCloser (s : List Char) (k : Nat) : Option Nat :=
  (List.range' k (s.length + 1 - k)).find? (fun q => matchAt s (("```").data) q)

/-- The fenced-block part of `re.search` with pattern
` ```json\s*([\s\S]*?)\s*``` `: the leftmost occurrence of ` ```json `
that is followed by a closing ` ``` `, paired with the earliest such
closer; the lazy group then captures the text between them (whitespace at
either end is split off by the greedy `\s*`s, which the subsequent
`.strip()` makes immaterial). -/
def findFence (s : List Char) : Option (Nat × Nat) :=
  ((List.range (s.length + 1)).find?
      (fun p => matchAt s (("```json").data) p && (firstCloser s (p + 7)).isSome)).bind
    (fun p => (firstCloser s (p + 7)).map (fun q => (p, q)))

/-- The JSON-extraction heuristic of `_call_llm_for_correction` (lines
179-212): prefer a fenced ```json block; else take from the first `[` or
`\x7b` (whichever comes first) to the last matching `]`/`\x7d`; `none`
when no plausible span exists (the code then returns no findings). -/
def extractJson (raw_response : List Char) : Option (List Char) :=
  match findFence raw_response with
  | some pq => some (pyStrip (sliceNat raw_response (pq.1 + 7) pq.2))
  | none =>
    let first_bracket := findCharIdx raw_response '\x5b'
    let first_curly := findCharIdx raw_response '\x7b'
    let picked : Option (Nat × Option Nat) :=
      match first_bracket, first_curly with
      | some fb, some fc =>
        if fb < fc then some (fb, rfindCharIdx raw_response '\x5d')
        else if fc < fb then some (fc, rfindCharIdx raw_response '\x7d')
        else none
      | some fb, none => some (fb, rfindCharIdx raw_response '\x5d')
      | none, some fc => some (fc, rfindCharIdx raw_response '\x7d')
      | none, none => none
    match picked with
    | some (st, some en) =>
      if st < en then some (pyStrip (sliceNat raw_response st (en + 1))) else none
    | _ => none

/-- `_call_llm_for_correction` (lines 138-284) given the model's raw
response for the chunk: empty chunks are not sent at all; then extract a
JSON span, parse it with `loads`, and validate/reconcile each candidate.
A failure at any stage yields zero findings for this chunk. -/
def call_llm_for_correction (loads : List Char → Option (List RawFinding))
    (raw_response : List Char) (chunk_text_content : List Char) : List Finding :=
  if (pyStrip chunk_text_content).isEmpty then []
  else
    match extractJson raw_response with
    | none => []
    | some json_str =>
      if json_str.isEmpty then []
      else
        match loads json_str with
        | none => []
        | some findings => processFindings chunk_text_content findings

/-- `_call_llm_for_correction` over the full candidate model: identical
to `call_llm_for_correction`, except that the outer
`try ... except Exception` (lines 179 and 282-284) turns an uncaught
`TypeError` from the validation loop into zero findings for the whole
chunk. -/
def call_llm_for_correction_json (loads : List Char → Option (List RawFindingJson))
    (raw_response : List Char) (chunk_text_content : List Char) : List Finding :=
  if (pyStrip chunk_text_content).isEmpty then []
  else
    match extractJson raw_response with
    | none => []
    | some json_str =>
      if json_str.isEmpty then []
      else
        match loads json_str with
        | none => []
        | some findings =>
          match processFindingsJson chunk_text_content findings with
          | .error _ => []
          | .ok validated_findings => validated_findings

/-- One aggregated, document-absolute issue record as produced by
`check_document_text` (and the sentinel of `check_pdf_document`). -/
structure LocatedIssue where
  original_snippet : List Char
  suggestion : List Char
  type : List Char
  line_number : Int
  line_with_error : Option (List Char)
  char_offset_start_in_doc : Nat
  char_offset_end_in_doc : Nat
  chunk_index : Int
  explanation : Option (List Char)
deriving DecidableEq

/-- The inner `for issue in chunk_issues` loop of `check_document_text`
(lines 311-334): map chunk-local offsets to document-absolute ones and
attach line information (skipped for PDF sources). -/
def locateChunkIssues (normalized_full_text : List Char) (is_pdf_source : Bool)
    (i : Nat) (chunk_abs_start_offset : Nat) : List Finding → List LocatedIssue
  | [] => []
  | issue :: rest =>
    let abs_start_offset := chunk_abs_start_offset + issue.start_offset_in_chunk
    let abs_end_offset := chunk_abs_start_offset + issue.end_offset_in_chunk
    let located : LocatedIssue :=
      if !is_pdf_source then
        let line_num_of_error : Int := (countCharIn normalized_full_text '\n' 0 abs_start_offset : Int) + 1
        let line_start_char :=
          match pyRfind normalized_full_text (("\n").data) 0 abs_start_offset with
          | some p => p + 1
          | none => 0
        let line_end_char :=
          match pyFind normalized_full_text (("\n").data) (abs_start_offset : Int)
              (normalized_full_text.length : Int) with
          | some p => p
          | none => normalized_full_text.length
        let line_text := pyStrip (sliceNat normalized_full_text line_start_char line_end_char)
        ⟨issue.original_snippet_text, issue.suggestion, issue.type, line_num_of_error,
          some line_text, abs_start_offset, abs_end_offset, (i : Int), issue.explanation⟩
      else
        ⟨issue.original_snippet_text, issue.suggestion, issue.type, -1,
          none, abs_start_offset, abs_end_offset, (i : Int), issue.explanation⟩
    located :: locateChunkIssues normalized_full_text is_pdf_source i chunk_abs_start_offset rest

/-- The outer `for i, chunk_info in enumerate(chunks_info)` loop of
`check_document_text` (lines 307-334). -/
def checkLoop (loads : List Char → Option (List RawFinding)) (responses : Nat → List Char)
    (normalized_full_text : List Char) (is_pdf_source : Bool) (i : Nat) :
    List ChunkInfo → List LocatedIssue
  | [] => []
  | chunk_info :: rest =>
    locateChunkIssues normalized_full_text is_pdf_source i chunk_info.start_offset_abs
        (call_llm_for_correction loads (responses i) chunk_info.text_content)
      ++ checkLoop loads responses normalized_full_text is_pdf_source (i + 1) rest

/-- `check_document_text` (lines 297-335): normalize, chunk with the
default `chunk_size=6000`, `overlap=600`, then collect located issues per
chunk. -/
def check_document_text (loads : List Char → Option (List RawFinding))
    (responses : Nat → List Char) (document_text : List Char) (is_pdf_source : Bool) :
    List LocatedIssue :=
  if document_text.isEmpty then []
  else
    let normalized_full_text := normalizeNewlines document_text
    let chunks_info := chunk_text normalized_full_text 6000 600
    if chunks_info.isEmpty then []
    else checkLoop loads responses normalized_full_text is_pdf_source 0 chunks_info

/-- The outer chunk loop of `check_document_text` over the full
candidate model. -/
def checkLoopJson (loads : List Char → Option (List RawFindingJson))
    (responses : Nat → List Char) (normalized_full_text : List Char)
    (is_pdf_source : Bool) (i : Nat) : List ChunkInfo → List LocatedIssue
  | [] => []
  | chunk_info :: rest =>
    locateChunkIssues normalized_full_text is_pdf_source i chunk_info.start_offset_abs
        (call_llm_for_correction_json loads (responses i) chunk_info.text_content)
      ++ checkLoopJson loads responses normalized_full_text is_pdf_source (i + 1) rest

/-- `check_document_text` over the full candidate model. -/
def check_document_text_json (loads : List Char → Option (List RawFindingJson))
    (responses : Nat → List Char) (document_text : List Char) (is_pdf_source : Bool) :
    List LocatedIssue :=
  if document_text.isEmpty then []
  else
    let normalized_full_text := normalizeNewlines document_text
    let chunks_info := chunk_text normalized_full_text 6000 600
    if chunks_info.isEmpty then []
    else checkLoopJson loads responses normalized_full_text is_pdf_source 0 chunks_info

/-- The sentinel record `check_pdf_document` returns when extraction
fails or yields no text (lines 340-345). -/
def extractionErrorSentinel (document_path : List Char) : LocatedIssue :=
  ⟨document_path, (("N/A").data), (("error_extraction").data), -1, none, 0, 0, -1,
    some (("Failed to extract text from PDF or PDF was empty.").data)⟩

/-- `check_pdf_document` (lines 337-346): extract the PDF's text (the
service's `_extract_text_from_pdf` is the same pipeline as
`extract_text_from_pdf`); a falsy result (None or the empty string)
produces the single sentinel record, otherwise the text is checked as a
PDF source. -/
def check_pdf_document (loads : List Char → Option (List RawFinding))
    (responses : Nat → List Char) (document_path : List Char)
    (pypdf2Available isFile : Bool) (pages : Except Unit (List (List Char))) :
    List LocatedIssue :=
  match extract_text_from_pdf pypdf2Available isFile pages with
  | none => [extractionErrorSentinel document_path]
  | some document_text =>
    if document_text.isEmpty then [extractionErrorSentinel document_path]
    else check_document_text loads responses document_text true

/-- `List.zipIdx`-style enumeration used to state the aggregation shape. -/
def enumFrom (i : Nat) : List ChunkInfo → List (Nat × ChunkInfo)
  | [] => []
  | c :: r => (i, c) :: enumFrom (i + 1) r

/-- The located record the specification describes for one reconciled
finding: document-absolute offsets are the chunk's absolute start plus the
chunk-local offsets; non-PDF sources get a 1-based line number counted
from the newlines before the absolute start and the stripped enclosing
line; PDF sources get line number -1 and no line text. -/
def locatedOf (normalized_full_text : List Char) (is_pdf_source : Bool)
    (i : Nat) (chunk_abs_start_offset : Nat) (issue : Finding) : LocatedIssue :=
  let abs_start_offset := chunk_abs_start_offset + issue.start_offset_in_chunk
  ⟨issue.original_snippet_text, issue.suggestion, issue.type,
    (if is_pdf_source then -1 else (countCharIn normalized_full_text '\n' 0 abs_start_offset : Int) + 1),
    (if is_pdf_source then none else
      some (pyStrip (sliceNat normalized_full_text
        (match pyRfind normalized_full_text (("\n").data) 0 abs_start_offset with
         | some p => p + 1
         | none => 0)
        (match pyFind normalized_full_text (("\n").data) (abs_start_offset : Int)
            (normalized_full_text.length : Int) with
         | some p => p
         | none => normalized_full_text.length)))),
    abs_start_offset, chunk_abs_start_offset + issue.end_offset_in_chunk, (i : Int),
    issue.explanation⟩

/-!
## Lemmas about the Python string primitives
-/

theorem matchAt_iff {s pat : List Char} {p : Nat} :
    matchAt s pat p = true ↔ (s.drop p).take pat.length = pat := by
  simp [matchAt]

theorem matchAt_bound {s pat : List Char} {p : Nat}
    (h : matchAt s pat p = true) (hne : pat ≠ []) : p + pat.length ≤ s.length := by
  have hlen := congrArg List.length (matchAt_iff.mp h)
  simp only [List.length_take, List.length_drop] at hlen
  have hpos : 0 < pat.length := List.length_pos.mpr hne
  omega

theorem matchAt_slice {s pat : List Char} {p : Nat} (h : matchAt s pat p = true) :
    sliceNat s p (p + pat.length) = pat := by
  have := matchAt_iff.mp h
  simpa [sliceNat, Nat.add_sub_cancel_left] using this

theorem matchAt_nil (s : List Char) (p : Nat) : matchAt s [] p = true := by
  simp [matchAt]

theorem occursInB_iff {pat w : List Char} :
    occursInB pat w = true ↔ ∃ q, matchAt w pat q = true := by
  constructor
  · intro h
    simp only [occursInB, List.any_eq_true, List.mem_range] at h
    obtain ⟨q, _, hq⟩ := h
    exact ⟨q, hq⟩
  · rintro ⟨q, hq⟩
    simp only [occursInB, List.any_eq_true, List.mem_range]
    by_cases hq2 : q ≤ w.length
    · exact ⟨q, by omega, hq⟩
    · have hd : w.drop q = [] := List.drop_eq_nil_of_le (by omega)
      have hpat : pat = [] := by
        have := matchAt_iff.mp hq
        rw [hd] at this
        simpa using this.symm
      exact ⟨0, by omega, by simp [hpat, matchAt_nil]⟩

theorem pyAdjEnd_le (n : Nat) (b : Int) : pyAdjEnd n b ≤ n := by
  unfold pyAdjEnd
  split <;> omega

theorem pyFind_some {s sub : List Char} {a b : Int} {p : Nat}
    (h : pyFind s sub a b = some p) :
    pyAdjStart s.length a ≤ p ∧ p + sub.length ≤ pyAdjEnd s.length b ∧
      matchAt s sub p = true := by
  unfold pyFind at h
  have hm := List.mem_of_find?_eq_some h
  have hp := List.find?_some h
  rw [List.mem_range'_1] at hm
  simp only [Bool.and_eq_true, decide_eq_true_eq] at hp
  exact ⟨hm.1, hp.1, hp.2⟩

theorem pyFind_none {s sub : List Char} {a b : Int}
    (h : pyFind s sub a b = none) (p : Nat)
    (h1 : pyAdjStart s.length a ≤ p) (h2 : p + sub.length ≤ pyAdjEnd s.length b) :
    matchAt s sub p = false := by
  unfold pyFind at h
  rw [List.find?_eq_none] at h
  have hmem : p ∈ List.range' (pyAdjStart s.length a)
      (pyAdjEnd s.length b + 1 - pyAdjStart s.length a) := by
    rw [List.mem_range'_1]
    omega
  have := h p hmem
  simp only [Bool.and_eq_true, decide_eq_true_eq, not_and] at this
  by_cases hx : matchAt s sub p = true
  · exact absurd hx (by simpa using this h2)
  · simpa using hx

theorem pyFind_full_isSome {s sub : List Char} (q : Nat)
    (hq : matchAt s sub q = true) :
    (pyFind s sub 0 (s.length : Int)).isSome := by
  unfold pyFind
  rw [List.find?_isSome]
  have ha : pyAdjStart s.length 0 = 0 := by simp [pyAdjStart]
  have hb : pyAdjEnd s.length (s.length : Int) = s.length := by
    simp [pyAdjEnd]
  by_cases hsub : sub = []
  · refine ⟨0, ?_, ?_⟩
    · rw [List.mem_range'_1]
      omega
    · simp [hsub, matchAt_nil, hb]
  · have hbound := matchAt_bound hq hsub
    refine ⟨q, ?_, ?_⟩
    · rw [List.mem_range'_1]
      omega
    · simp only [Bool.and_eq_true, decide_eq_true_eq]
      exact ⟨by omega, hq⟩

theorem pySlice_nonneg (l : List Char) (a b : Int) (ha : 0 ≤ a) (hb : 0 ≤ b) :
    pySlice l a b = sliceNat l a.toNat b.toNat := by
  unfold pySlice sliceNat pyAdjStart pyAdjEnd
  dsimp only
  rw [if_neg (by omega), if_neg (by omega)]
  by_cases hc : a.toNat ≤ l.length
  · rw [min_eq_left hc]
    apply List.take_eq_take.mpr
    simp only [List.length_drop]
    omega
  · rw [min_eq_right (show l.length ≤ a.toNat by omega)]
    rw [List.drop_length, List.drop_eq_nil_of_le (show l.length ≤ a.toNat by omega)]
    simp

theorem matchAt_slice_window {l sub : List Char} {a b : Int} {p : Nat}
    (h1 : pyAdjStart l.length a ≤ p) (h2 : p + sub.length ≤ pyAdjEnd l.length b)
    (h3 : matchAt l sub p = true) :
    matchAt (pySlice l a b) sub (p - pyAdjStart l.length a) = true := by
  have hble := pyAdjEnd_le l.length b
  rw [matchAt_iff]
  unfold pySlice
  rw [min_eq_left (by omega)]
  rw [List.drop_take, List.drop_drop]
  have e1 : pyAdjStart l.length a + (p - pyAdjStart l.length a) = p := by omega
  rw [e1, List.take_take]
  have e2 : min sub.length
      (pyAdjEnd l.length b - pyAdjStart l.length a - (p - pyAdjStart l.length a))
      = sub.length := by omega
  rw [e2]
  exact matchAt_iff.mp h3

theorem matchAt_of_slice {l sub : List Char} {a b : Int} {q : Nat}
    (h : matchAt (pySlice l a b) sub q = true) :
    matchAt l sub (min (pyAdjStart l.length a) l.length + q) = true ∨ sub = [] := by
  by_cases hsub : sub = []
  · right; exact hsub
  · left
    have hbound := matchAt_bound h hsub
    have hlen : (pySlice l a b).length =
        min (pyAdjEnd l.length b - min (pyAdjStart l.length a) l.length)
          (l.length - min (pyAdjStart l.length a) l.length) := by
      unfold pySlice
      simp [List.length_take, List.length_drop]
    rw [matchAt_iff] at h ⊢
    unfold pySlice at h
    rw [List.drop_take, List.drop_drop, List.take_take] at h
    have e2 : min sub.length
        (pyAdjEnd l.length b - min (pyAdjStart l.length a) l.length - q)
        = sub.length := by omega
    rw [e2] at h
    exact h

theorem occursInB_slice_of_find_some {l sub : List Char} {a b : Int} {p : Nat}
    (h : pyFind l sub a b = some p) : occursInB sub (pySlice l a b) = true := by
  obtain ⟨h1, h2, h3⟩ := pyFind_some h
  exact occursInB_iff.mpr ⟨p - pyAdjStart l.length a, matchAt_slice_window h1 h2 h3⟩

theorem occursInB_of_slice {l sub : List Char} {a b : Int}
    (h : occursInB sub (pySlice l a b) = true) : occursInB sub l = true := by
  obtain ⟨q, hq⟩ := occursInB_iff.mp h
  rcases matchAt_of_slice hq with h' | h'
  · exact occursInB_iff.mpr ⟨_, h'⟩
  · exact occursInB_iff.mpr ⟨0, by simp [h', matchAt_nil]⟩

theorem pyFind_full_some_of_occursInB {l sub : List Char}
    (h : occursInB sub l = true) : ∃ p, pyFind l sub 0 (l.length : Int) = some p := by
  obtain ⟨q, hq⟩ := occursInB_iff.mp h
  exact Option.isSome_iff_exists.mp (pyFind_full_isSome q hq)

theorem occursInB_full_of_find_some {l sub : List Char} {p : Nat}
    (h : pyFind l sub 0 (l.length : Int) = some p) : occursInB sub l = true := by
  obtain ⟨_, _, h3⟩ := pyFind_some h
  exact occursInB_iff.mpr ⟨p, h3⟩

theorem reconcile_some_slice {chunk : List Char} {s e : Int} {snip : List Char} {a b : Nat}
    (h : reconcile chunk s e snip = some (a, b)) :
    sliceNat chunk a b = snip := by
  unfold reconcile at h
  dsimp only at h
  split at h
  · rename_i hd
    obtain ⟨hs, hse, hslice⟩ := hd
    rw [Option.some.injEq, Prod.mk.injEq] at h
    obtain ⟨ha, hb⟩ := h
    rw [← ha, ← hb, ← pySlice_nonneg chunk s e hs (by omega)]
    exact hslice
  · rcases hfind : pyFind chunk snip (max 0 (s - 50))
        (min (chunk.length : Int) (s + (snip.length : Int) + 50)) with _ | p
    · rw [hfind] at h
      rcases hfull : pyFind chunk snip 0 (chunk.length : Int) with _ | p2
      · rw [hfull] at h
        simp at h
      · rw [hfull] at h
        rw [Option.some.injEq, Prod.mk.injEq] at h
        obtain ⟨ha, hb⟩ := h
        rw [← ha, ← hb]
        exact matchAt_slice (pyFind_some hfull).2.2
    · rw [hfind] at h
      rw [Option.some.injEq, Prod.mk.injEq] at h
      obtain ⟨ha, hb⟩ := h
      rw [← ha, ← hb]
      exact matchAt_slice (pyFind_some hfind).2.2

/-!
## Claim theorems
-/

/-- C1: finding-location reconciliation proceeds in exactly this order:
claimed offsets are accepted unchanged when `0 ≤ start < end` and
`chunk[start:end]` equals the snippet; otherwise the snippet is searched
literally inside the window `chunk[max(0, start-50) : min(len(chunk),
start+len(snippet)+50)]` and an actual occurrence position is accepted;
otherwise it is searched in the whole chunk and an actual occurrence
position is accepted; otherwise the finding is discarded (`none`). -/
theorem C1_reconciler_order (chunk_text_content llm_snippet : List Char)
    (llm_start_offset llm_end_offset : Int) :
    (0 ≤ llm_start_offset → llm_start_offset < llm_end_offset →
      pySlice chunk_text_content llm_start_offset llm_end_offset = llm_snippet →
      reconcile chunk_text_content llm_start_offset llm_end_offset llm_snippet =
        some (llm_start_offset.toNat, llm_end_offset.toNat)) ∧
    (¬ (0 ≤ llm_start_offset ∧ llm_start_offset < llm_end_offset ∧
        pySlice chunk_text_content llm_start_offset llm_end_offset = llm_snippet) →
      occursInB llm_snippet (pySlice chunk_text_content (max 0 (llm_start_offset - 50))
        (min (chunk_text_content.length : Int)
          (llm_start_offset + (llm_snippet.length : Int) + 50))) = true →
      ∃ p, reconcile chunk_text_content llm_start_offset llm_end_offset llm_snippet =
          some (p, p + llm_snippet.length) ∧
        sliceNat chunk_text_content p (p + llm_snippet.length) = llm_snippet) ∧
    (¬ (0 ≤ llm_start_offset ∧ llm_start_offset < llm_end_offset ∧
        pySlice chunk_text_content llm_start_offset llm_end_offset = llm_snippet) →
      occursInB llm_snippet (pySlice chunk_text_content (max 0 (llm_start_offset - 50))
        (min (chunk_text_content.length : Int)
          (llm_start_offset + (llm_snippet.length : Int) + 50))) = false →
      occursInB llm_snippet chunk_text_content = true →
      ∃ p, reconcile chunk_text_content llm_start_offset llm_end_offset llm_snippet =
          some (p, p + llm_snippet.length) ∧
        sliceNat chunk_text_content p (p + llm_snippet.length) = llm_snippet) ∧
    (¬ (0 ≤ llm_start_offset ∧ llm_start_offset < llm_end_offset ∧
        pySlice chunk_text_content llm_start_offset llm_end_offset = llm_snippet) →
      occursInB llm_snippet (pySlice chunk_text_content (max 0 (llm_start_offset - 50))
        (min (chunk_text_content.length : Int)
          (llm_start_offset + (llm_snippet.length : Int) + 50))) = false →
      occursInB llm_snippet chunk_text_content = false →
      reconcile chunk_text_content llm_start_offset llm_end_offset llm_snippet = none) := by
  refine ⟨?_, ?_, ?_, ?_⟩
  · intro h1 h2 h3
    unfold reconcile
    rw [if_pos ⟨h1, h2, h3⟩]
  · intro hnd hw
    unfold reconcile
    rw [if_neg hnd]
    dsimp only
    rcases hfind : pyFind chunk_text_content llm_snippet (max 0 (llm_start_offset - 50))
        (min (chunk_text_content.length : Int)
          (llm_start_offset + (llm_snippet.length : Int) + 50)) with _ | p
    · have hcf : occursInB llm_snippet chunk_text_content = true := occursInB_of_slice hw
      obtain ⟨p, hp⟩ := pyFind_full_some_of_occursInB hcf
      exact ⟨p, by simp [hp], matchAt_slice (pyFind_some hp).2.2⟩
    · exact ⟨p, rfl, matchAt_slice (pyFind_some hfind).2.2⟩
  · intro hnd hwf hcf
    unfold reconcile
    rw [if_neg hnd]
    dsimp only
    rcases hfind : pyFind chunk_text_content llm_snippet (max 0 (llm_start_offset - 50))
        (min (chunk_text_content.length : Int)
          (llm_start_offset + (llm_snippet.length : Int) + 50)) with _ | p
    · obtain ⟨p, hp⟩ := pyFind_full_some_of_occursInB hcf
      exact ⟨p, by simp [hp], matchAt_slice (pyFind_some hp).2.2⟩
    · exact absurd (occursInB_slice_of_find_some hfind) (by simp [hwf])
  · intro hnd hwf hcff
    unfold reconcile
    rw [if_neg hnd]
    dsimp only
    rcases hfind : pyFind chunk_text_content llm_snippet (max 0 (llm_start_offset - 50))
        (min (chunk_text_content.length : Int)
          (llm_start_offset + (llm_snippet.length : Int) + 50)) with _ | p
    · rcases hfull : pyFind chunk_text_content llm_snippet 0
          (chunk_text_content.length : Int) with _ | p2
      · simp [hfull]
      · exact absurd (occursInB_full_of_find_some hfull) (by simp [hcff])
    · exact absurd (occursInB_slice_of_find_some hfind) (by simp [hwf])

/-- C1 witness: the direct-trust branch at a concrete input. -/
theorem C1_reconciler_order_witness :
    reconcile (("Hello teh world").data) 6 9 (("teh").data) = some (6, 9) :=
  (C1_reconciler_order (("Hello teh world").data) (("teh").data) 6 9).1
    (by decide) (by decide) (by decide)

/-- C2: every finding surviving reconciliation satisfies
`chunk[start:end] == original_snippet_text` for its (possibly corrected)
offsets, and the validated list's length is exactly the number of
candidates that reach reconciliation and can be located — every
unlocatable candidate shortens the output by exactly one. -/
theorem C2_reconciliation_invariant (chunk_text_content : List Char)
    (findings : List RawFinding) :
    (∀ f ∈ processFindings chunk_text_content findings,
      sliceNat chunk_text_content f.start_offset_in_chunk f.end_offset_in_chunk =
        f.original_snippet_text) ∧
    (processFindings chunk_text_content findings).length =
      ((findings.filterMap toCandidate).filter
        (fun c => (reconcile chunk_text_content c.2.1 c.2.2 c.1).isSome)).length := by
  induction findings with
  | nil => simp [processFindings]
  | cons f rest ih =>
    rcases f with ⟨os, sg, ty, so, eo, ex⟩
    rcases os with _ | snip
    · simpa [processFindings, toCandidate] using ih
    · rcases sg with _ | sug
      · simpa [processFindings, toCandidate] using ih
      · rcases ty with _ | t
        · simpa [processFindings, toCandidate] using ih
        · rcases so with _ | so'
          · simpa [processFindings, toCandidate] using ih
          · rcases eo with _ | eo'
            · simpa [processFindings, toCandidate] using ih
            · rcases so' with _ | s
              · simpa [processFindings, toCandidate] using ih
              · rcases eo' with _ | e
                · simpa [processFindings, toCandidate] using ih
                · rcases hrec : reconcile chunk_text_content s e snip with _ | ab
                  · simpa [processFindings, toCandidate, hrec] using ih
                  · rcases ab with ⟨a, b⟩
                    constructor
                    · intro g hg
                      simp only [processFindings, hrec, List.mem_cons] at hg
                      rcases hg with hg | hg
                      · subst hg
                        exact reconcile_some_slice hrec
                      · exact ih.1 g hg
                    · simp only [processFindings, hrec, List.length_cons,
                        List.filterMap_cons, toCandidate]
                      simp only [List.filter_cons, hrec, Option.isSome_some]
                      simp only [if_pos trivial, List.length_cons]
                      omega

/-- C2 witness: a locatable candidate survives with a verified slice and
an unlocatable candidate shrinks the output by one (2 candidates in, 1
finding out). -/
theorem C2_reconciliation_invariant_witness :
    sliceNat (("Hello teh world").data) 6 9 = (("teh").data) ∧
    (processFindings (("Hello teh world").data)
      [⟨some (("teh").data), some (("the").data), some (("spelling").data),
          some (some 6), some (some 9), some (("typo").data)⟩,
        ⟨some (("zzz").data), some (("z").data), some (("spelling").data),
          some (some 0), some (some 3), none⟩]).length = 1 := by
  have h := C2_reconciliation_invariant (("Hello teh world").data)
    [⟨some (("teh").data), some (("the").data), some (("spelling").data),
        some (some 6), some (some 9), some (("typo").data)⟩,
      ⟨some (("zzz").data), some (("z").data), some (("spelling").data),
        some (some 0), some (some 3), none⟩]
  refine ⟨?_, ?_⟩
  · exact h.1 ⟨(("teh").data), (("the").data), (("spelling").data), 6, 9,
      some (("typo").data)⟩ (by decide)
  · rw [h.2]
    decide

theorem dropWhile_head?_false {p : Char → Bool} {l : List Char} {c : Char}
    (h : (l.dropWhile p).head? = some c) : p c = false := by
  induction l with
  | nil => simp at h
  | cons d r ih =>
    rw [List.dropWhile_cons] at h
    split at h
    · exact ih h
    · rename_i hd
      simp only [List.head?_cons, Option.some.injEq] at h
      subst h
      simpa using hd

theorem rstrip_getLast? {l : List Char} {c : Char}
    (h : (pyRStrip l).getLast? = some c) : pyIsSpace c = false := by
  unfold pyRStrip at h
  rw [List.getLast?_reverse] at h
  exact dropWhile_head?_false h

theorem rstrip_eq_self {l : List Char}
    (h : ∀ c, l.getLast? = some c → pyIsSpace c = false) : pyRStrip l = l := by
  unfold pyRStrip
  rcases hrev : l.reverse with _ | ⟨c, r⟩
  · have hnil : l = [] := by simpa using congrArg List.reverse hrev
    rw [hnil]
    rfl
  · have hc : l.getLast? = some c := by
      rw [← List.head?_reverse, hrev]
      rfl
    rw [List.dropWhile_cons, if_neg (by simp [h c hc]), ← hrev,
      List.reverse_reverse]

theorem getLast?_drop_imp {l : List Char} {k : Nat} {c : Char}
    (h : (l.drop k).getLast? = some c) : l.getLast? = some c := by
  have hne : l.drop k ≠ [] := by
    intro e
    rw [e] at h
    simp at h
  calc l.getLast? = (l.take k ++ l.drop k).getLast? := by rw [List.take_append_drop]
    _ = (l.drop k).getLast? := List.getLast?_append_of_ne_nil _ hne
    _ = some c := h

theorem getLast?_dropWhile_imp {p : Char → Bool} {l : List Char} {c : Char}
    (h : (l.dropWhile p).getLast? = some c) : l.getLast? = some c := by
  induction l with
  | nil => simp at h
  | cons d r ih =>
    rw [List.dropWhile_cons] at h
    split at h
    · have hr := ih h
      have hrne : r ≠ [] := by
        intro e
        rw [e] at hr
        simp at hr
      rw [show d :: r = [d] ++ r from rfl, List.getLast?_append_of_ne_nil _ hrne]
      exact hr
    · exact h

theorem pyStrip_drop_rstripped (raw : List Char) (k : Nat) :
    pyRStrip ((pyStrip raw).drop k) = (pyStrip raw).drop k := by
  apply rstrip_eq_self
  intro c hc
  have h1 : (pyStrip raw).getLast? = some c := getLast?_drop_imp hc
  have h2 : (pyRStrip raw).getLast? = some c := by
    unfold pyStrip pyLStrip at h1
    exact getLast?_dropWhile_imp h1
  exact rstrip_getLast? h2

theorem pyStrip_drop_eq_lstrip (raw : List Char) (k : Nat) :
    pyStrip ((pyStrip raw).drop k) = pyLStrip ((pyStrip raw).drop k) := by
  show pyLStrip (pyRStrip ((pyStrip raw).drop k)) = pyLStrip ((pyStrip raw).drop k)
  rw [pyStrip_drop_rstripped]

theorem startsWith_head {c : Char} {pre l : List Char}
    (h : startsWith (c :: pre) l = true) : l.head? = some c := by
  unfold startsWith at h
  rcases l with _ | ⟨d, r⟩
  · simp at h
  · simp only [List.length_cons, List.take_succ_cons, beq_iff_eq, List.cons.injEq] at h
    simp [h.1]

/-- C3: `evaluate` preserves the raw LLM response verbatim in
`raw_response` and parses the trimmed response's prefix
case-insensitively: `YES:` gives `answer = true`, `NO:` gives
`answer = false`, `UNSURE:` gives `answer = null`, each with `reasoning`
the text after the prefix with leading whitespace stripped; with no
matching prefix, `answer = null` and `reasoning` is
`"Unexpected response format: "` followed by the trimmed response — and,
being a total function, `evaluate` raises no exception. -/
theorem C3_evaluate_prefix_parsing (question : List Char)
    (context : List (List Char × List Char)) (ask : List ChatMessage → List Char)
    (instructions : Option (List Char)) :
    ∀ r s, r = evaluate question context ask instructions →
      s = pyStrip (ask (buildMessages question context instructions)) →
      r.raw_response = ask (buildMessages question context instructions) ∧
      (startsWith (("YES:").data) (pyUpper s) = true →
        r.answer = some true ∧ r.reasoning = pyLStrip (s.drop 4)) ∧
      (startsWith (("NO:").data) (pyUpper s) = true →
        r.answer = some false ∧ r.reasoning = pyLStrip (s.drop 3)) ∧
      (startsWith (("UNSURE:").data) (pyUpper s) = true →
        r.answer = none ∧ r.reasoning = pyLStrip (s.drop 7)) ∧
      (startsWith (("YES:").data) (pyUpper s) = false →
        startsWith (("NO:").data) (pyUpper s) = false →
        startsWith (("UNSURE:").data) (pyUpper s) = false →
        r.answer = none ∧
        r.reasoning = (("Unexpected response format: ").data) ++ s) := by
  intro r s hr hs
  subst hr
  refine ⟨?_, ?_, ?_, ?_, ?_⟩
  · unfold evaluate
    dsimp only
    split
    · rfl
    · split
      · rfl
      · split <;> rfl
  · intro hy
    unfold evaluate
    dsimp only
    rw [← hs, if_pos hy]
    refine ⟨rfl, ?_⟩
    show pyStrip (s.drop 4) = pyLStrip (s.drop 4)
    rw [hs]
    exact pyStrip_drop_eq_lstrip (ask (buildMessages question context instructions)) 4
  · intro hn
    have hy : startsWith (("YES:").data) (pyUpper s) = false := by
      rcases hYb : startsWith (("YES:").data) (pyUpper s) with _ | _
      · rfl
      · have h1 : (pyUpper s).head? = some 'Y' :=
          @startsWith_head _ (("ES:").data) _ hYb
        have h2 : (pyUpper s).head? = some 'N' :=
          @startsWith_head _ (("O:").data) _ hn
        rw [h1] at h2
        simp at h2
    unfold evaluate
    dsimp only
    rw [← hs, if_neg (by simp [hy]), if_pos hn]
    refine ⟨rfl, ?_⟩
    show pyStrip (s.drop 3) = pyLStrip (s.drop 3)
    rw [hs]
    exact pyStrip_drop_eq_lstrip (ask (buildMessages question context instructions)) 3
  · intro hu
    have hy : startsWith (("YES:").data) (pyUpper s) = false := by
      rcases hYb : startsWith (("YES:").data) (pyUpper s) with _ | _
      · rfl
      · have h1 : (pyUpper s).head? = some 'Y' :=
          @startsWith_head _ (("ES:").data) _ hYb
        have h2 : (pyUpper s).head? = some 'U' :=
          @startsWith_head _ (("NSURE:").data) _ hu
        rw [h1] at h2
        simp at h2
    have hn : startsWith (("NO:").data) (pyUpper s) = false := by
      rcases hNb : startsWith (("NO:").data) (pyUpper s) with _ | _
      · rfl
      · have h1 : (pyUpper s).head? = some 'N' :=
          @startsWith_head _ (("O:").data) _ hNb
        have h2 : (pyUpper s).head? = some 'U' :=
          @startsWith_head _ (("NSURE:").data) _ hu
        rw [h1] at h2
        simp at h2
    unfold evaluate
    dsimp only
    rw [← hs, if_neg (by simp [hy]), if_neg (by simp [hn]), if_pos hu]
    refine ⟨rfl, ?_⟩
    show pyStrip (s.drop 7) = pyLStrip (s.drop 7)
    rw [hs]
    exact pyStrip_drop_eq_lstrip (ask (buildMessages question context instructions)) 7
  · intro h1 h2 h3
    unfold evaluate
    dsimp only
    rw [← hs, if_neg (by simp [h1]), if_neg (by simp [h2]), if_neg (by simp [h3])]
    exact ⟨rfl, rfl⟩

/-- C3 witness: the specification's lowercase example,
`"no: Missing certification."`. -/
theorem C3_evaluate_prefix_parsing_witness :
    (evaluate (("q").data) [] (fun _ => (("no: Missing certification.").data)) none).raw_response
        = (("no: Missing certification.").data) ∧
      (evaluate (("q").data) [] (fun _ => (("no: Missing certification.").data)) none).answer
        = some false ∧
      (evaluate (("q").data) [] (fun _ => (("no: Missing certification.").data)) none).reasoning
        = (("Missing certification.").data) := by
  have h := C3_evaluate_prefix_parsing (("q").data) []
    (fun _ => (("no: Missing certification.").data)) none
    (evaluate (("q").data) [] (fun _ => (("no: Missing certification.").data)) none)
    (pyStrip (("no: Missing certification.").data)) rfl (by decide)
  refine ⟨h.1, (h.2.2.1 (by decide)).1, ?_⟩
  rw [(h.2.2.1 (by decide)).2]
  decide

theorem chunkNextCur_gt (overlap endOff cur : Nat) : cur < chunkNextCur overlap endOff cur := by
  unfold chunkNextCur
  dsimp only
  split
  · omega
  · rename_i h
    omega

theorem chunkLoopF_offset_ge (s : List Char) (cs ov : Nat) :
    ∀ fuel cur line proc, ∀ c ∈ chunkLoopF s cs ov fuel cur line proc,
      cur ≤ c.start_offset_abs := by
  intro fuel
  induction fuel with
  | zero =>
    intro cur line proc c hc
    simp [chunkLoopF] at hc
  | succ fuel ih =>
    intro cur line proc c hc
    simp only [chunkLoopF] at hc
    split at hc
    · split at hc
      · split at hc
        · simp at hc
        · simp at hc
          rw [hc]
      · rw [List.mem_append] at hc
        rcases hc with hc | hc
        · split at hc
          · simp at hc
          · simp at hc
            rw [hc]
        · have h1 := ih _ _ _ c hc
          have h2 := chunkNextCur_gt ov (chunkEndOff s cs cur) cur
          omega
    · simp at hc

theorem chunkLoopF_pairwise (s : List Char) (cs ov : Nat) :
    ∀ fuel cur line proc,
      List.Pairwise (· < ·)
        ((chunkLoopF s cs ov fuel cur line proc).map ChunkInfo.start_offset_abs) := by
  intro fuel
  induction fuel with
  | zero =>
    intro cur line proc
    simp [chunkLoopF]
  | succ fuel ih =>
    intro cur line proc
    simp only [chunkLoopF]
    split
    · split
      · split <;> simp
      · split
        · simpa using ih (chunkNextCur ov (chunkEndOff s cs cur) cur) _ cur
        · simp only [List.singleton_append, List.map_cons]
          refine List.pairwise_cons.mpr ⟨?_, ih _ _ _⟩
          intro y hy
          rw [List.mem_map] at hy
          obtain ⟨c, hc, hy⟩ := hy
          have h1 := chunkLoopF_offset_ge s cs ov fuel _ _ _ c hc
          have h2 := chunkNextCur_gt ov (chunkEndOff s cs cur) cur
          rw [← hy]
          show cur < c.start_offset_abs
          omega
    · simp

theorem chunkLoopF_fuel_stable (s : List Char) (cs ov : Nat) :
    ∀ f1 f2 cur line proc, s.length - cur ≤ f1 → s.length - cur ≤ f2 →
      chunkLoopF s cs ov f1 cur line proc = chunkLoopF s cs ov f2 cur line proc := by
  intro f1
  induction f1 with
  | zero =>
    intro f2 cur line proc h1 h2
    have hcur : ¬ cur < s.length := by omega
    cases f2 <;> simp [chunkLoopF, hcur]
  | succ f1 ih =>
    intro f2 cur line proc h1 h2
    by_cases hcur : cur < s.length
    · rcases f2 with _ | f2
      · omega
      · have hnext := chunkNextCur_gt ov (chunkEndOff s cs cur) cur
        have hrec := ih f2 (chunkNextCur ov (chunkEndOff s cs cur) cur)
          (line + countCharIn s '\n' proc cur) cur (by omega) (by omega)
        simp only [chunkLoopF, if_pos hcur]
        rw [hrec]
    · cases f2 <;> simp [chunkLoopF, hcur]

theorem count_take_split (s : List Char) (c : Char) (a b : Nat) (h : a ≤ b) :
    (s.take b).count c = (s.take a).count c + (sliceNat s a b).count c := by
  unfold sliceNat
  conv_lhs => rw [show b = a + (b - a) by omega]
  rw [List.take_add, List.count_append]

theorem chunkLoopF_line_inv (s : List Char) (cs ov : Nat) :
    ∀ fuel cur line proc, proc ≤ cur → line = (s.take proc).count '\n' + 1 →
      ∀ c ∈ chunkLoopF s cs ov fuel cur line proc,
        c.start_line_abs = (s.take c.start_offset_abs).count '\n' + 1 := by
  intro fuel
  induction fuel with
  | zero =>
    intro cur line proc _ _ c hc
    simp [chunkLoopF] at hc
  | succ fuel ih =>
    intro cur line proc hpc hline c hc
    have hline' : line + countCharIn s '\n' proc cur = (s.take cur).count '\n' + 1 := by
      rw [hline, countCharIn]
      have := count_take_split s '\n' proc cur hpc
      omega
    simp only [chunkLoopF] at hc
    split at hc
    · split at hc
      · split at hc
        · simp at hc
        · simp at hc
          rw [hc]
          exact hline'
      · rw [List.mem_append] at hc
        rcases hc with hc | hc
        · split at hc
          · simp at hc
          · simp at hc
            rw [hc]
            exact hline'
        · exact ih _ _ _ (le_of_lt (chunkNextCur_gt ov (chunkEndOff s cs cur) cur))
            hline' c hc
    · simp at hc

/-- C4: for every input text, positive chunk size and any overlap
(including overlap exceeding the chunk size), the chunker is a total
function whose loop needs at most `length` iterations — running the
fuelled loop with any fuel of at least the text length yields the same
result, so the cursor's forced advance of at least one per iteration
rules out an infinite loop — the emitted chunks have strictly increasing
`start_offset_abs`, and empty input yields no chunks. -/
theorem C4_chunker_termination (text : List Char) (chunk_size overlap : Nat)
    (hcs : 0 < chunk_size) :
    chunk_text [] chunk_size overlap = [] ∧
    List.Pairwise (· < ·)
      ((chunk_text text chunk_size overlap).map ChunkInfo.start_offset_abs) ∧
    ∀ fuel, (normalizeNewlines text).length ≤ fuel →
      chunkLoopF (normalizeNewlines text) chunk_size overlap fuel 0 1 0 =
        chunk_text text chunk_size overlap := by
  refine ⟨rfl, ?_, ?_⟩
  · unfold chunk_text
    split
    · simp
    · exact chunkLoopF_pairwise _ _ _ _ 0 1 0
  · intro fuel hf
    unfold chunk_text
    split
    · rename_i hempty
      have htext : text = [] := by simpa using hempty
      subst htext
      cases fuel <;> simp [chunkLoopF, normalizeNewlines]
    · exact chunkLoopF_fuel_stable _ _ _ fuel _ 0 1 0 (by omega) (by omega)

/-- C4 witness: a concrete run with `overlap > chunk_size` still
terminates within `length` iterations, with strictly increasing offsets,
and the empty text yields no chunks. -/
theorem C4_chunker_termination_witness :
    chunk_text [] 3 5 = [] ∧
    List.Pairwise (· < ·)
      ((chunk_text (("ab cd").data) 3 5).map ChunkInfo.start_offset_abs) ∧
    chunkLoopF (normalizeNewlines (("ab cd").data)) 3 5 12 0 1 0 =
      chunk_text (("ab cd").data) 3 5 := by
  have h := C4_chunker_termination (("ab cd").data) 3 5 (by decide)
  exact ⟨h.1, h.2.1, h.2.2 12 (by decide)⟩

/-- C9: for every chunk emitted by the chunker, the incrementally
maintained `start_line_abs` equals one plus the number of newline
characters before the chunk's untrimmed start offset in the normalized
text — the running counter agrees with recomputation from scratch. -/
theorem C9_incremental_line_counter (text : List Char) (chunk_size overlap : Nat) :
    ∀ c ∈ chunk_text text chunk_size overlap,
      c.start_line_abs =
        ((normalizeNewlines text).take c.start_offset_abs).count '\n' + 1 := by
  intro c hc
  unfold chunk_text at hc
  split at hc
  · simp at hc
  · exact chunkLoopF_line_inv _ _ _ _ 0 1 0 (le_refl 0) (by simp) c hc

/-- C9 witness: a chunk starting on the second line of a concrete text
carries `start_line_abs = 2`, the recomputed value. -/
theorem C9_incremental_line_counter_witness :
    (⟨(("cd").data), 3, 2⟩ : ChunkInfo) ∈ chunk_text (("ab\ncd ef\ngh").data) 4 1 ∧
    (2 : Nat) = ((normalizeNewlines (("ab\ncd ef\ngh").data)).take 3).count '\n' + 1 := by
  refine ⟨by decide, ?_⟩
  exact C9_incremental_line_counter (("ab\ncd ef\ngh").data) 4 1
    ⟨(("cd").data), 3, 2⟩ (by decide)

theorem locateChunkIssues_eq (norm : List Char) (pdf : Bool) (i start : Nat)
    (issues : List Finding) :
    locateChunkIssues norm pdf i start issues = issues.map (locatedOf norm pdf i start) := by
  induction issues with
  | nil => rfl
  | cons x rest ih =>
    simp only [locateChunkIssues, ih, List.map_cons]
    congr 1
    by_cases hp : pdf
    · simp [locatedOf, hp]
    · simp [locatedOf, hp]

theorem checkLoop_eq (loads : List Char → Option (List RawFinding))
    (responses : Nat → List Char) (norm : List Char) (pdf : Bool) :
    ∀ chunks i, checkLoop loads responses norm pdf i chunks =
      (enumFrom i chunks).flatMap (fun p =>
        (call_llm_for_correction loads (responses p.1) p.2.text_content).map
          (locatedOf norm pdf p.1 p.2.start_offset_abs)) := by
  intro chunks
  induction chunks with
  | nil => intro i; rfl
  | cons c rest ih =>
    intro i
    simp only [checkLoop, enumFrom, List.flatMap_cons, locateChunkIssues_eq, ih]

theorem check_document_text_eq (loads : List Char → Option (List RawFinding))
    (responses : Nat → List Char) (document_text : List Char) (is_pdf_source : Bool) :
    check_document_text loads responses document_text is_pdf_source =
      (enumFrom 0 (chunk_text (normalizeNewlines document_text) 6000 600)).flatMap
        (fun p => (call_llm_for_correction loads (responses p.1) p.2.text_content).map
          (locatedOf (normalizeNewlines document_text) is_pdf_source p.1
            p.2.start_offset_abs)) := by
  unfold check_document_text
  split
  · rename_i h
    have htext : document_text = [] := by simpa using h
    subst htext
    rfl
  · dsimp only
    split
    · rename_i hchunks
      have hnil : chunk_text (normalizeNewlines document_text) 6000 600 = [] := by
        simpa using hchunks
      rw [hnil]
      rfl
    · exact checkLoop_eq loads responses _ is_pdf_source _ 0

/-- C5: the aggregator's output is exactly, chunk by chunk in order, the
per-finding record described by the specification: document-absolute
offsets are the chunk's `start_offset_abs` plus the finding's chunk-local
offsets; non-PDF sources get a 1-based line number derived from the count
of newlines before the absolute start offset and the stripped enclosing
line bounded by the nearest preceding/following newline; PDF sources get
line number -1 and a null line. -/
theorem C5_absolute_offsets_and_lines (loads : List Char → Option (List RawFinding))
    (responses : Nat → List Char) (document_text : List Char) (is_pdf_source : Bool) :
    check_document_text loads responses document_text is_pdf_source =
      (enumFrom 0 (chunk_text (normalizeNewlines document_text) 6000 600)).flatMap
        (fun p => (call_llm_for_correction loads (responses p.1) p.2.text_content).map
          (locatedOf (normalizeNewlines document_text) is_pdf_source p.1
            p.2.start_offset_abs)) :=
  check_document_text_eq loads responses document_text is_pdf_source

theorem processFindingsJson_filter (chunk_text_content : List Char)
    (fs : List RawFindingJson) :
    processFindingsJson chunk_text_content fs =
      processFindingsJson chunk_text_content (fs.filter requiredKeysPresent) := by
  induction fs with
  | nil => rfl
  | cons f rest ih =>
    rcases f with ⟨os, sg, ty, so, eo, ex⟩
    rcases os with _ | snip
    · simpa [processFindingsJson, requiredKeysPresent, List.filter_cons] using ih
    · rcases sg with _ | sug
      · simpa [processFindingsJson, requiredKeysPresent, List.filter_cons] using ih
      · rcases ty with _ | t
        · simpa [processFindingsJson, requiredKeysPresent, List.filter_cons] using ih
        · rcases so with _ | so'
          · simpa [processFindingsJson, requiredKeysPresent, List.filter_cons] using ih
          · rcases eo with _ | eo'
            · simpa [processFindingsJson, requiredKeysPresent, List.filter_cons] using ih
            · have hkeep : requiredKeysPresent
                  ⟨some snip, some sug, some t, some so', some eo', ex⟩ = true := rfl
              rw [List.filter_cons, if_pos hkeep]
              rcases so' with s | _ | _
              · rcases eo' with e | _ | _
                · rcases hrec : reconcile chunk_text_content s e snip with _ | ab
                  · simp only [processFindingsJson, hrec]
                    exact ih
                  · rcases ab with ⟨a, b⟩
                    simp only [processFindingsJson, hrec]
                    rw [ih]
                · simp only [processFindingsJson]
                  exact ih
                · rfl
              · simp only [processFindingsJson]
                exact ih
              · rfl

theorem flatMap_congrOn {α β : Type} (l : List α) (f g : α → List β)
    (h : ∀ a ∈ l, f a = g a) : l.flatMap f = l.flatMap g := by
  induction l with
  | nil => rfl
  | cons a r ih =>
    simp only [List.flatMap_cons]
    rw [h a (by simp), ih (fun x hx => h x (by simp [hx]))]

theorem checkLoopJson_eq (loads : List Char → Option (List RawFindingJson))
    (responses : Nat → List Char) (norm : List Char) (pdf : Bool) :
    ∀ chunks i, checkLoopJson loads responses norm pdf i chunks =
      (enumFrom i chunks).flatMap (fun p =>
        (call_llm_for_correction_json loads (responses p.1) p.2.text_content).map
          (locatedOf norm pdf p.1 p.2.start_offset_abs)) := by
  intro chunks
  induction chunks with
  | nil => intro i; rfl
  | cons c rest ih =>
    intro i
    simp only [checkLoopJson, enumFrom, List.flatMap_cons, locateChunkIssues_eq, ih]

theorem check_document_text_json_eq (loads : List Char → Option (List RawFindingJson))
    (responses : Nat → List Char) (document_text : List Char) (is_pdf_source : Bool) :
    check_document_text_json loads responses document_text is_pdf_source =
      (enumFrom 0 (chunk_text (normalizeNewlines document_text) 6000 600)).flatMap
        (fun p =>
          (call_llm_for_correction_json loads (responses p.1) p.2.text_content).map
          (locatedOf (normalizeNewlines document_text) is_pdf_source p.1
            p.2.start_offset_abs)) := by
  unfold check_document_text_json
  split
  · rename_i h
    have htext : document_text = [] := by simpa using h
    subst htext
    rfl
  · dsimp only
    split
    · rename_i hchunks
      have hnil : chunk_text (normalizeNewlines document_text) 6000 600 = [] := by
        simpa using hchunks
      rw [hnil]
      rfl
    · exact checkLoopJson_eq loads responses _ is_pdf_source _ 0

/-- C8 (amended): per chunk, the scanner extracts JSON from a fenced code
block if present, else from the outermost bracket/brace span; a response
that cannot be parsed as JSON yields exactly zero findings for that chunk
while the scan of the remaining chunks continues; and every parsed
candidate missing one of the required fields `original_snippet_text`,
`suggestion`, `type`, `start_offset_in_chunk`, `end_offset_in_chunk` is
skipped before reaching reconciliation (the code does not require
`explanation`).  Stated over the full candidate model, in which a present
offset may also make `int()` raise `TypeError`: such a candidate is not
skipped — the uncaught exception discards the whole chunk's findings
(second conjunct). -/
theorem C8_json_extraction_and_skipping (loads : List Char → Option (List RawFindingJson)) :
    (∀ raw_response chunk_text_content,
      call_llm_for_correction_json loads raw_response chunk_text_content =
        if (pyStrip chunk_text_content).isEmpty then []
        else
          match extractJson raw_response with
          | none => []
          | some json_str =>
            if json_str.isEmpty then []
            else
              match loads json_str with
              | none => []
              | some fs =>
                match processFindingsJson chunk_text_content
                    (fs.filter requiredKeysPresent) with
                | .error _ => []
                | .ok validated_findings => validated_findings) ∧
    (∀ raw_response chunk_text_content json_str fs,
      extractJson raw_response = some json_str → loads json_str = some fs →
      processFindingsJson chunk_text_content fs = .error () →
      call_llm_for_correction_json loads raw_response chunk_text_content = []) ∧
    (∀ (responses : Nat → List Char) (document_text : List Char)
        (is_pdf_source : Bool) (i : Nat),
      (∀ json_str, extractJson (responses i) = some json_str → loads json_str = none) →
      check_document_text_json loads responses document_text is_pdf_source =
        (enumFrom 0 (chunk_text (normalizeNewlines document_text) 6000 600)).flatMap
          (fun p => if p.1 = i then []
            else (call_llm_for_correction_json loads (responses p.1) p.2.text_content).map
              (locatedOf (normalizeNewlines document_text) is_pdf_source p.1
                p.2.start_offset_abs))) := by
  have hzero : ∀ raw chunk, (∀ js, extractJson raw = some js → loads js = none) →
      call_llm_for_correction_json loads raw chunk = [] := by
    intro raw chunk hcond
    unfold call_llm_for_correction_json
    split
    · rfl
    · rcases hx : extractJson raw with _ | js
      · rfl
      · have hl := hcond js hx
        simp [hl]
  refine ⟨?_, ?_, ?_⟩
  · intro raw chunk
    unfold call_llm_for_correction_json
    split
    · rfl
    · rcases hx : extractJson raw with _ | js
      · rfl
      · dsimp only
        split
        · rfl
        · rcases hl : loads js with _ | fs
          · rfl
          · dsimp only
            rw [processFindingsJson_filter chunk fs]
  · intro raw chunk json_str fs hx hl herr
    unfold call_llm_for_correction_json
    split
    · rfl
    · rw [hx]
      dsimp only
      split
      · rfl
      · rw [hl]
        dsimp only
        rw [herr]
  · intro responses document_text is_pdf_source i hcond
    rw [check_document_text_json_eq]
    apply flatMap_congrOn
    intro p _
    by_cases hpi : p.1 = i
    · rw [if_pos hpi, hpi, hzero (responses i) p.2.text_content hcond]
      rfl
    · rw [if_neg hpi]

/-- C8 counterexample: a parsed candidate that has the five
code-required fields but no `explanation` key is not skipped — contrary
to the claim, it reaches reconciliation and is returned. -/
theorem C8_json_extraction_and_skipping_counterexample :
    call_llm_for_correction
        (fun js => if js = (("[x]").data) then
          some [⟨some (("teh").data), some (("the").data), some (("spelling").data),
            some (some 0), some (some 3), none⟩] else none)
        (("[x]").data) (("teh world").data)
      = [⟨(("teh").data), (("the").data), (("spelling").data), 0, 3, none⟩] ∧
    [⟨(("teh").data), (("the").data), (("spelling").data), 0, 3, none⟩] ≠
      ([] : List Finding) := by
  constructor
  · decide
  · decide

/-- C8 witness: a document whose single chunk's response has no JSON at
all yields an output in which that chunk contributes nothing. -/
theorem C8_json_extraction_and_skipping_witness :
    check_document_text_json (fun _ => none) (fun _ => (("no json here").data))
        (("ab").data) false =
      (enumFrom 0 (chunk_text (normalizeNewlines (("ab").data)) 6000 600)).flatMap
        (fun p => if p.1 = 0 then []
          else (call_llm_for_correction_json (fun _ => none) (("no json here").data)
              p.2.text_content).map
            (locatedOf (normalizeNewlines (("ab").data)) false p.1
              p.2.start_offset_abs)) := by
  have h := (C8_json_extraction_and_skipping (fun _ => none)).2.2
    (fun _ => (("no json here").data)) (("ab").data) false 0
    (fun js _ => rfl)
  exact h

/-- C6 (amended): extraction returns `none` on any read/parse failure, on
a missing format library, on an unsupported extension, and whenever the
source yields no truthy pages/paragraphs/text — but the PDF path appends
any non-empty page text without stripping it, so a whitespace-only page
can produce a successful empty string (see the counterexample); "no text"
is therefore only a falsy result, not always `none`. -/
theorem C6_no_text_is_none (d : DocSource) :
    (d.isFile = false → extract_text_from_document d = none) ∧
    (pyLower d.suffix ≠ ((".pdf").data) ∧ pyLower d.suffix ≠ ((".docx").data) ∧
      pyLower d.suffix ≠ ((".doc").data) → extract_text_from_document d = none) ∧
    (d.pypdf2Available = false →
      extract_text_from_pdf d.pypdf2Available d.isFile d.pdfPages = none) ∧
    (d.pdfPages = Except.error () →
      extract_text_from_pdf d.pypdf2Available d.isFile d.pdfPages = none) ∧
    (∀ pageList, d.pdfPages = Except.ok pageList →
      pageList.filter (fun p => !p.isEmpty) = [] →
      extract_text_from_pdf d.pypdf2Available d.isFile d.pdfPages = none) ∧
    (d.docxAvailable = false →
      extract_text_from_docx d.docxAvailable d.isFile d.docxContent = none) ∧
    (d.docxContent = Except.error () →
      extract_text_from_docx d.docxAvailable d.isFile d.docxContent = none) ∧
    (∀ pc, d.docxContent = Except.ok pc →
      pc.1.filter (fun p => !(pyStrip p).isEmpty) ++
        pc.2.filter (fun p => !(pyStrip p).isEmpty) = [] →
      extract_text_from_docx d.docxAvailable d.isFile d.docxContent = none) ∧
    (d.docx2txtAvailable = false →
      extract_text_from_doc d.docx2txtAvailable d.isFile d.docRaw = none) ∧
    (d.docRaw = Except.error () →
      extract_text_from_doc d.docx2txtAvailable d.isFile d.docRaw = none) ∧
    (∀ raw, d.docRaw = Except.ok raw → (pyStrip raw).isEmpty = true →
      extract_text_from_doc d.docx2txtAvailable d.isFile d.docRaw = none) := by
  obtain ⟨isF, suf, pA, dA, d2A, pp, dc, dr⟩ := d
  refine ⟨?_, ?_, ?_, ?_, ?_, ?_, ?_, ?_, ?_, ?_, ?_⟩
  · intro h
    dsimp only at h
    subst h
    simp [extract_text_from_document]
  · intro h
    obtain ⟨h1, h2, h3⟩ := h
    dsimp only at h1 h2 h3
    unfold extract_text_from_document
    dsimp only
    cases isF
    · simp
    · rw [if_neg (by decide), if_neg h1, if_neg h2, if_neg h3]
  · intro h
    dsimp only at h
    subst h
    simp [extract_text_from_pdf]
  · intro h
    dsimp only at h
    subst h
    cases pA <;> cases isF <;> simp [extract_text_from_pdf]
  · intro pageList h1 h2
    dsimp only at h1
    subst h1
    have hx : (pageList.filter (fun p => !p.isEmpty)).isEmpty = true := by
      rw [h2]
      rfl
    have hcore : extractPdfCore pageList = none := by
      unfold extractPdfCore
      dsimp only
      rw [if_pos hx]
    cases pA <;> cases isF <;> simp [extract_text_from_pdf, hcore]
  · intro h
    dsimp only at h
    subst h
    simp [extract_text_from_docx]
  · intro h
    dsimp only at h
    subst h
    cases dA <;> cases isF <;> simp [extract_text_from_docx]
  · intro pc h1 h2
    dsimp only at h1
    subst h1
    have hx : (pc.1.filter (fun p => !(pyStrip p).isEmpty) ++
        pc.2.filter (fun p => !(pyStrip p).isEmpty)).isEmpty = true := by
      rw [h2]
      rfl
    have hcore : extractDocxCore pc.1 pc.2 = none := by
      unfold extractDocxCore
      dsimp only
      rw [if_pos hx]
    cases dA <;> cases isF <;> simp [extract_text_from_docx, hcore]
  · intro h
    dsimp only at h
    subst h
    simp [extract_text_from_doc]
  · intro h
    dsimp only at h
    subst h
    cases d2A <;> cases isF <;> simp [extract_text_from_doc]
  · intro raw h1 h2
    dsimp only at h1
    subst h1
    have hx : (raw.isEmpty || (pyStrip raw).isEmpty) = true := by
      rw [h2]
      exact Bool.or_true _
    have hcore : extractDocCore raw = none := by
      unfold extractDocCore
      rw [if_pos hx]
    cases d2A <;> cases isF <;> simp [extract_text_from_doc, hcore]

/-- C6 counterexample: a PDF whose single page is the non-empty,
whitespace-only string `" "` passes the truthiness check, normalizes to
nothing, and is returned as the successful empty string `some ""` —
contradicting the claim that a successful empty string is never
returned. -/
theorem C6_no_text_is_none_counterexample :
    extract_text_from_document
        ⟨true, ((".pdf").data), true, true, true, Except.ok [((" ").data)],
          Except.ok ([], []), Except.ok []⟩ = some [] ∧
      (some ([] : List Char)) ≠ none := by
  exact ⟨by decide, by decide⟩

/-- C6 witness: an unsupported extension yields `none`. -/
theorem C6_no_text_is_none_witness :
    extract_text_from_document
        ⟨true, ((".txt").data), true, true, true, Except.error (),
          Except.error (), Except.error ()⟩ = none := by
  exact (C6_no_text_is_none
      ⟨true, ((".txt").data), true, true, true, Except.error (),
        Except.error (), Except.error ()⟩).2.1
    ⟨by decide, by decide, by decide⟩

/-- C7 (amended): only the PDF extractor re-joins words split by a
trailing hyphen before a line break (`"informa-\ntion"` becomes
`"information"`); the docx and doc extractors apply the newline and
whitespace normalization but no hyphen re-join, so the same input keeps
its hyphenated break. -/
theorem C7_hyphen_rejoin_pdf_only :
    extractPdfCore [(("informa-\ntion").data)] = some (("information").data) ∧
    occursInB (("information").data) (("informa-\ntion").data) = false ∧
    extractDocCore (("informa-\ntion").data) = some (("informa-\ntion").data) ∧
    extractDocxCore [(("informa-\ntion").data)] [] = some (("informa-\ntion").data) := by
  exact ⟨by decide, by decide, by decide, by decide⟩

/-- C7 counterexample: for a `.doc` source whose raw text contains
`"informa-\ntion"`, the extractor's output does not contain
`"information"` — the claimed format-uniform hyphen re-join does not
happen outside the PDF path. -/
theorem C7_hyphen_rejoin_pdf_only_counterexample :
    extract_text_from_document
        ⟨true, ((".doc").data), true, true, true, Except.error (), Except.error (),
          Except.ok (("informa-\ntion").data)⟩
      = some (("informa-\ntion").data) ∧
    occursInB (("information").data) (("informa-\ntion").data) = false := by
  exact ⟨by decide, by decide⟩

/-- C10: when PDF text extraction fails or yields no text (a falsy
result), `check_pdf_document` returns exactly one sentinel record with
type `error_extraction`, the document path as snippet, line number -1,
no line text, zero document offsets and chunk index -1 — a shape distinct
from the empty list of a successful run with no findings. -/
theorem C10_extraction_sentinel (loads : List Char → Option (List RawFinding))
    (responses : Nat → List Char) (document_path : List Char)
    (pypdf2Available isFile : Bool) (pages : Except Unit (List (List Char))) :
    (extract_text_from_pdf pypdf2Available isFile pages = none ∨
      extract_text_from_pdf pypdf2Available isFile pages = some []) →
    check_pdf_document loads responses document_path pypdf2Available isFile pages =
      [⟨document_path, (("N/A").data), (("error_extraction").data), -1, none, 0, 0, -1,
        some (("Failed to extract text from PDF or PDF was empty.").data)⟩] := by
  intro h
  unfold check_pdf_document
  rcases h with h | h <;> rw [h] <;> rfl

/-- C10 witness: extraction failure (missing library) produces the
sentinel for a concrete path. -/
theorem C10_extraction_sentinel_witness :
    check_pdf_document (fun _ => none) (fun _ => []) (("doc.pdf").data) false true
        (Except.error ()) =
      [⟨(("doc.pdf").data), (("N/A").data), (("error_extraction").data), -1, none, 0, 0,
        -1, some (("Failed to extract text from PDF or PDF was empty.").data)⟩] :=
  C10_extraction_sentinel (fun _ => none) (fun _ => []) (("doc.pdf").data) false true
    (Except.error ()) (Or.inl (by decide))
